import Mathlib

/-!
Verification development for the `stats_on_sight` upload/OCR/roster service
(`src/app.js`).  The JavaScript source is shallowly embedded below:

* the team table (`teamNameMap`) and token matching of `getTeamIdsFromText`
  (app.js lines 143-155) become pure list functions over `List Char`;
* the HTTP handler control flow (app.js lines 93-132) becomes a trace of
  emitted actions (`ReqAction`);
* JSON navigation in `getCurrentGame` / `formatJson` (app.js lines 157-244)
  becomes `Option Json` accesses in an `Except Unit` monad, where a JS
  `TypeError` thrown by reading a property of `undefined` is `.error ()`
  and a JS `undefined` result of a successful read is `none`.
-/

/-- The character class of JavaScript's RegExp `\s` (and hence of the
split pattern `/[\s\n]+/` at app.js:144, since `[\s\n]` = `\s`). -/
def isWs (c : Char) : Bool :=
  c == ' ' || c == '\t' || c == '\n' || c == '\x0b' || c == '\x0c' || c == '\r' ||
  c == '\u00A0' || c == '\u1680' || c == '\u2000' || c == '\u2001' || c == '\u2002' ||
  c == '\u2003' || c == '\u2004' || c == '\u2005' || c == '\u2006' || c == '\u2007' ||
  c == '\u2008' || c == '\u2009' || c == '\u200A' || c == '\u2028' || c == '\u2029' ||
  c == '\u202F' || c == '\u205F' || c == '\u3000' || c == '\uFEFF'

/-- JavaScript `String.prototype.split(/[\s\n]+/)` (app.js:144), character by
character.  `cur` is the (reversed) token being accumulated; `inSep` records
that the previous character belonged to a separator run already emitted.
JS semantics kept: a leading separator yields a leading empty token, a
trailing separator a trailing empty token, and `"".split` yields `[""]`. -/
def jsSplitGo : List Char → List Char → Bool → List (List Char)
  | [], cur, _ => [cur.reverse]
  | c :: rest, cur, inSep =>
    if isWs c then
      if inSep then jsSplitGo rest cur true
      else cur.reverse :: jsSplitGo rest [] true
    else jsSplitGo rest (c :: cur) false

/-- `description.split(/[\s\n]+/)` from app.js:144. -/
def jsSplit (cs : List Char) : List (List Char) := jsSplitGo cs [] false

/-- The static team table of app.js lines 50-82, in source order.
Modelled as an association list: membership of a key is exactly
`hasOwnProperty` (own keys only, no prototype chain). -/
def teamNameMap : List (String × Nat) :=
  [("NJD", 1), ("NYI", 2), ("NYR", 3), ("PHI", 4), ("PIT", 5), ("BOS", 6),
   ("BUF", 7), ("MTL", 8), ("OTT", 9), ("TOR", 10), ("CAR", 12), ("FLA", 13),
   ("TBL", 14), ("WSH", 15), ("CHI", 16), ("DET", 17), ("NSH", 18), ("STL", 19),
   ("CGY", 20), ("COL", 21), ("EDM", 22), ("VAN", 23), ("ANA", 24), ("DAL", 25),
   ("LAK", 26), ("SJS", 28), ("CBJ", 29), ("MIN", 30), ("WPG", 52), ("ARI", 53),
   ("VGK", 54)]

/-- `teamNameMap.hasOwnProperty(word) ? teamNameMap[word] : nothing`
(app.js:148-149) for a single token. -/
def tokLookup (w : List Char) : Option Nat :=
  teamNameMap.lookup w.asString

/-- The `words.forEach(push if hasOwnProperty)` loop of app.js:147-151:
the `teams` array, in document order, duplicates included. -/
def collectTeams : List (List Char) → List Nat
  | [] => []
  | w :: ws =>
    match tokLookup w with
    | some id => id :: collectTeams ws
    | none => collectTeams ws

/-- The `teams` array computed by `getTeamIdsFromText` (app.js:144-151). -/
def teamIdsOfText (desc : List Char) : List Nat :=
  collectTeams (jsSplit desc)

/-- Reference tokenizer following the spec's words (section 4.4): split the
text into the maximal runs of non-whitespace characters ("splits the text on
whitespace/newline runs"), in reading order; no empty tokens. -/
def specWordsGo : List Char → List Char → List (List Char)
  | [], [] => []
  | [], cur => [cur.reverse]
  | c :: rest, cur =>
    if isWs c then
      match cur with
      | [] => specWordsGo rest []
      | _ :: _ => cur.reverse :: specWordsGo rest []
    else specWordsGo rest (c :: cur)

/-- The token sequence of the spec's reference definition. -/
def specWords (cs : List Char) : List (List Char) := specWordsGo cs []

/-- Reference team-id list, following the spec's words: keep the tokens that
are exactly (case-sensitively) keys of the team table, map each kept token to
its numeric id, preserving document order (duplicates included). -/
def specTeamIds (desc : List Char) : List Nat :=
  (specWords desc).filterMap tokLookup

/-- Result of `getTeamIdsFromText` (app.js:152-153): either the literal `{}`
(no token matched) or the value of `getCurrentGame(teams[0])`, abstracted by
the team id actually passed to `getCurrentGame`. -/
inductive TeamsOutcome where
  | emptyObj : TeamsOutcome
  | queryTeam (teamId : Nat) : TeamsOutcome
deriving DecidableEq

/-- `getTeamIdsFromText` (app.js:143-155): compute `teams`; if empty return
`{}`, otherwise proceed with `getCurrentGame(teams[0])`. -/
def getTeamIdsFromText (desc : List Char) : TeamsOutcome :=
  match teamIdsOfText desc with
  | [] => .emptyObj
  | t :: _ => .queryTeam t

/-- Body of the final `res.status(200).json(teamIds)` at app.js:128:
`teamIds` is `undefined` when the OCR branch left it unassigned, `{}` when no
token matched, or the formatted stats for the queried team. -/
inductive RespBody where
  | undef : RespBody
  | emptyObj : RespBody
  | gameStats (teamId : Nat) : RespBody
deriving DecidableEq

/-- Externally visible actions of one `POST /upload` request, in program
order: object-store write, OCR call, stats-API schedule call
(`getCurrentGame`, which is the first stats request), and HTTP responses. -/
inductive ReqAction where
  | storeWrite (filename : String)
  | ocrCall (url : String)
  | respond400 (msg : String)
  | respond404 (err : String)
  | respond200 (body : RespBody)
  | scheduleCall (teamId : Nat)
deriving DecidableEq

/-- Trace of the pipeline from `getTeamIdsFromText` onwards (app.js:124 and
128): `{}` is sent with status 200; otherwise `getCurrentGame(teams[0])` is
invoked (the stats-API call, which itself performs the boxscore fetch,
abstracted into `gameStats`) and its result is sent with status 200. -/
def teamPipelineActions (desc : List Char) : List ReqAction :=
  match getTeamIdsFromText desc with
  | .emptyObj => [.respond200 .emptyObj]
  | .queryTeam t => [.scheduleCall t, .respond200 (.gameStats t)]

/-- One OCR annotation; only its `description` field is consumed
(app.js:124). -/
structure Detection where
  description : List Char

/-- The `blobStream.on('finish')` handler from the OCR result on
(app.js:120-128).  Note the source has no `return` after the 404 at
app.js:126, so `res.status(200).json(teamIds)` at app.js:128 still executes
with `teamIds === undefined` in the empty-detections branch. -/
def finishActions (detections : List Detection) : List ReqAction :=
  match detections with
  | [] => [.respond404 "No text in image", .respond200 .undef]
  | d :: _ => teamPipelineActions d.description

/-- The public URL built at app.js:111-113. -/
def publicUrl (bucketName blobName : String) : String :=
  "https://storage.googleapis.com/" ++ bucketName ++ "/" ++ blobName

/-- The uploaded file as the handler sees it; only `originalname` matters to
the modelled actions (the byte buffer is opaque). -/
structure UploadedFile where
  originalname : String

/-- The `POST /upload` handler (app.js:93-132) as its action trace, with the
store write and OCR call assumed successful (their error paths go to the
generic error handler and are outside the claims).  `detections` is the
annotation sequence the OCR service returns for the stored image. -/
def uploadHandler (bucketName : String) (file : Option UploadedFile)
    (detections : List Detection) : List ReqAction :=
  match file with
  | none => [.respond400 "No file uploaded."]
  | some f =>
    .storeWrite f.originalname ::
    .ocrCall (publicUrl bucketName f.originalname) ::
    finishActions detections

/-- Parsed JSON values, as produced by `JSON.parse`. -/
inductive Json where
  | null : Json
  | bool (b : Bool) : Json
  | num (n : Int) : Json
  | str (s : String) : Json
  | arr (elems : List Json) : Json
  | obj (fields : List (String × Json)) : Json

/-- JS property read `j[key]` for a string key on a defined value: an own
field of an object, `undefined` (`none`) otherwise.  (Inherited prototype
properties of parsed JSON values are never the object fields the source
reads, and are not modelled.) -/
def Json.getS : Json → String → Option Json
  | .obj fields, key => fields.lookup key
  | _, _ => none

/-- JS element read `j[i]` for a numeric index on a defined value: an array
element, or the `toString i` own field of an object, `undefined` otherwise. -/
def Json.getN : Json → Nat → Option Json
  | .arr elems, i => elems.get? i
  | .obj fields, i => fields.lookup (toString i)
  | _, _ => none

/-- JS property read `v[key]` where `v` may be `undefined`: reading a
property of `undefined` throws a `TypeError` (`.error ()`); otherwise the
read succeeds and may itself yield `undefined`. -/
def readS (v : Option Json) (key : String) : Except Unit (Option Json) :=
  match v with
  | none => .error ()
  | some j => .ok (j.getS key)

/-- JS element read `v[i]` where `v` may be `undefined`; as `readS`. -/
def readN (v : Option Json) (i : Nat) : Except Unit (Option Json) :=
  match v with
  | none => .error ()
  | some j => .ok (j.getN i)

/-- The schedule request URL built at app.js:159 (note the source writes
`&&` between the two expand parameters). -/
def scheduleRequestURL (teamID : Nat) : String :=
  "https://statsapi.web.nhl.com/api/v1/teams/" ++ toString teamID ++
    "?expand=team.schedule.next&&expand=team.schedule.previous"

/-- `json['teams'][0]` (app.js:171/175). -/
def navTeams0 (json : Json) : Except Unit (Option Json) := do
  let t ← readS (some json) "teams"
  readN t 0

/-- `t0['nextGameSchedule']['dates'][0]['games'][0]` (app.js:171). -/
def navNextGame (t0 : Option Json) : Except Unit (Option Json) := do
  let sched ← readS t0 "nextGameSchedule"
  let dates ← readS sched "dates"
  let d0 ← readN dates 0
  let games ← readS d0 "games"
  readN games 0

/-- `t0['previousGameSchedule']['dates'][0]['games'][0]` (app.js:175). -/
def navPrevGame (t0 : Option Json) : Except Unit (Option Json) := do
  let sched ← readS t0 "previousGameSchedule"
  let dates ← readS sched "dates"
  let d0 ← readN dates 0
  let games ← readS d0 "games"
  readN games 0

/-- The JS loose comparison `v == "Live"` at app.js:172 for the values the
field can take: true exactly when `v` is the string `"Live"`.  (`undefined`
and other JSON scalars never compare loosely equal to `"Live"`; exotic
coercions such as a one-element array are not JSON shapes of this field and
are not modelled.) -/
def isLiveStr (v : Option Json) : Bool :=
  match v with
  | some (.str s) => s == "Live"
  | _ => false

/-- The game-selection logic of `getCurrentGame`'s response handler
(app.js:169-177), producing the `gameId` that is passed to `getGameStats`:
any thrown navigation error is caught and rejects the promise
(`.error ()`). -/
def getCurrentGameId (json : Json) : Except Unit (Option Json) := do
  let t0 ← navTeams0 json
  let nextGame ← navNextGame t0
  let status ← readS nextGame "status"
  let abstractState ← readS status "abstractGameState"
  if isLiveStr abstractState then
    readS nextGame "gamePk"
  else
    let prevGame ← navPrevGame t0
    readS prevGame "gamePk"

/-- One entry of the formatted `onIce` output (app.js:233/239): the object
literal `{ fullName, number }`; either field is `undefined` when missing on
the person record. -/
structure PlayerEntry where
  fullName : Option Json
  number : Option Json

/-- One side of the formatted output (app.js:217-224): the object literal
with exactly the fields `name` and `onIce`. -/
structure SideView where
  name : Option Json
  onIce : List PlayerEntry

/-- The full formatted output (app.js:216-225): the object literal with
exactly the fields `home` and `away`. -/
structure BoxscoreView where
  home : SideView
  away : SideView

/-- The key `'ID' + playerId` (app.js:230/236) for the JSON shapes a
boxscore `onIce` array contains (numbers; a string id would concatenate as
well).  Other JSON shapes of `playerId` are outside the API's shapes and
map to an error. -/
def idKey : Json → Option String
  | .num n => some ("ID" ++ toString n)
  | .str s => some ("ID" ++ s)
  | _ => none

/-- The body of the `.map` callback at app.js:229-234 (resp. 235-240) for
one on-ice player id: re-navigates `json['teams'][side]['players']`, reads
the `'ID' + playerId` record, its `person`, and the person's `fullName` and
`primaryNumber`. -/
def formatPlayer (json : Json) (side : String) (pid : Json) :
    Except Unit PlayerEntry := do
  let t ← readS (some json) "teams"
  let sd ← readS t side
  let players ← readS sd "players"
  match idKey pid with
  | none => .error ()
  | some key => do
    let record ← readS players key
    let person ← readS record "person"
    let fullName ← readS person "fullName"
    let number ← readS person "primaryNumber"
    .ok { fullName := fullName, number := number }

/-- `Array.prototype.map` over the on-ice ids: element order preserved, the
first thrown error propagates. -/
def mapPlayers (f : Json → Except Unit PlayerEntry) :
    List Json → Except Unit (List PlayerEntry)
  | [] => .ok []
  | x :: xs => do
    let y ← f x
    let ys ← mapPlayers f xs
    .ok (y :: ys)

/-- `.map` requires an array receiver: `undefined` or a non-array value has
no `.map` and throws a `TypeError`. -/
def asArray : Option Json → Except Unit (List Json)
  | some (.arr elems) => .ok elems
  | _ => .error ()

/-- `json['teams'][side]['team']['name']` (app.js:227/228). -/
def teamName (json : Json) (side : String) : Except Unit (Option Json) := do
  let t ← readS (some json) "teams"
  let sd ← readS t side
  let tm ← readS sd "team"
  readS tm "name"

/-- `json['teams'][side]['onIce'].map(...)` (app.js:229-234 / 235-240). -/
def formatSideIce (json : Json) (side : String) :
    Except Unit (List PlayerEntry) := do
  let t ← readS (some json) "teams"
  let sd ← readS t side
  let iceJ ← readS sd "onIce"
  let ids ← asArray iceJ
  mapPlayers (formatPlayer json side) ids

/-- `formatJson` (app.js:215-244) in source statement order: home name,
away name, home on-ice map, away on-ice map; any throw propagates. -/
def formatJson (json : Json) : Except Unit BoxscoreView := do
  let homeName ← teamName json "home"
  let awayName ← teamName json "away"
  let homeIce ← formatSideIce json "home"
  let awayIce ← formatSideIce json "away"
  .ok { home := { name := homeName, onIce := homeIce },
        away := { name := awayName, onIce := awayIce } }

/-- Outcome of a JS promise, error objects abstracted. -/
inductive PromiseOutcome (α : Type) where
  | resolved (value : α) : PromiseOutcome α
  | rejected : PromiseOutcome α

/-- The response-end handler of `getGameStats` (app.js:200-210) after
`JSON.parse` succeeded on the boxscore body: `resolve(formatJson(json))`,
with a throw inside the `try` rejecting the promise. -/
def getGameStats (json : Json) : PromiseOutcome BoxscoreView :=
  match formatJson json with
  | .ok v => .resolved v
  | .error _ => .rejected

/-- Fixture: the `status` object of a scheduled game. -/
def schedStatus (s : String) : Json := .obj [("abstractGameState", .str s)]

/-- Fixture: a next scheduled game with the given status and `gamePk`. -/
def schedNextGame (s : String) (npk : Int) : Json :=
  .obj [("status", schedStatus s), ("gamePk", .num npk)]

/-- Fixture: a previous scheduled game with the given `gamePk`. -/
def schedPrevGame (ppk : Int) : Json := .obj [("gamePk", .num ppk)]

/-- Fixture: `teams[0]` of a schedule response. -/
def schedTeam0 (s : String) (npk ppk : Int) : Json :=
  .obj [("nextGameSchedule",
          .obj [("dates", .arr [.obj [("games", .arr [schedNextGame s npk])]])]),
        ("previousGameSchedule",
          .obj [("dates", .arr [.obj [("games", .arr [schedPrevGame ppk])]])])]

/-- Fixture: a full schedule response. -/
def scheduleFixture (s : String) (npk ppk : Int) : Json :=
  .obj [("teams", .arr [schedTeam0 s npk ppk])]

/-- Fixture: a person record. -/
def personFix (nm num : String) : Json :=
  .obj [("fullName", .str nm), ("primaryNumber", .str num)]

/-- Fixture: home side of a boxscore with two on-ice players. -/
def boxHomeFix : Json :=
  .obj [("team", .obj [("name", .str "Home Club")]),
        ("onIce", .arr [.num 101, .num 102]),
        ("players",
          .obj [("ID101", .obj [("person", personFix "Home One" "11")]),
                ("ID102", .obj [("person", personFix "Home Two" "22")])])]

/-- Fixture: away side of a boxscore with two on-ice players. -/
def boxAwayFix : Json :=
  .obj [("team", .obj [("name", .str "Away Club")]),
        ("onIce", .arr [.num 201, .num 202]),
        ("players",
          .obj [("ID201", .obj [("person", personFix "Away One" "33")]),
                ("ID202", .obj [("person", personFix "Away Two" "44")])])]

/-- Fixture: a well-formed boxscore response, two players per side. -/
def boxFixture : Json := .obj [("teams", .obj [("home", boxHomeFix), ("away", boxAwayFix)])]

/-- Fixture: away side whose `onIce` id 333 has no `ID333` entry in
`players`. -/
def boxAwayMissFix : Json :=
  .obj [("team", .obj [("name", .str "Away Club")]),
        ("onIce", .arr [.num 333]),
        ("players", .obj [("ID201", .obj [("person", personFix "Away One" "33")])])]

/-- Fixture: a boxscore response whose away side has a missing player key. -/
def boxMissFixture : Json :=
  .obj [("teams", .obj [("home", boxHomeFix), ("away", boxAwayMissFix)])]

/-! ## Helper lemmas -/

theorem tokLookup_nil : tokLookup [] = none := by decide

theorem ok_bind {α β : Type} (a : α) (f : α → Except Unit β) :
    (Except.ok a >>= f : Except Unit β) = f a := rfl

theorem readS_some (j : Json) (k : String) : readS (some j) k = .ok (j.getS k) := rfl

theorem bind_eq_ok {α β : Type} {x : Except Unit α} {f : α → Except Unit β} {b : β}
    (h : (x >>= f) = .ok b) : ∃ a, x = .ok a ∧ f a = .ok b := by
  cases x with
  | error e => exact absurd h (by simp [Bind.bind, Except.bind])
  | ok a => exact ⟨a, rfl, h⟩

theorem collectTeams_eq_filterMap (ws : List (List Char)) :
    collectTeams ws = ws.filterMap tokLookup := by
  induction ws with
  | nil => rfl
  | cons w ws ih =>
    cases h : tokLookup w <;> simp [collectTeams, h, List.filterMap_cons, ih]

theorem splitGo_specGo_filterMap (cs : List Char) :
    (∀ cur, (jsSplitGo cs cur false).filterMap tokLookup
        = (specWordsGo cs cur).filterMap tokLookup)
    ∧ (jsSplitGo cs [] true).filterMap tokLookup
        = (specWordsGo cs []).filterMap tokLookup := by
  induction cs with
  | nil =>
    constructor
    · intro cur
      cases cur with
      | nil => simp [jsSplitGo, specWordsGo, List.filterMap_cons, tokLookup_nil]
      | cons d cur => simp [jsSplitGo, specWordsGo]
    · simp [jsSplitGo, specWordsGo, List.filterMap_cons, tokLookup_nil]
  | cons c rest ih =>
    constructor
    · intro cur
      cases hw : isWs c with
      | true =>
        cases cur with
        | nil =>
          simp only [jsSplitGo, specWordsGo, hw, if_true, List.reverse_nil,
            List.filterMap_cons, tokLookup_nil]
          exact ih.2
        | cons d cur =>
          simp only [jsSplitGo, specWordsGo, hw, if_true]
          cases h : tokLookup ((d :: cur).reverse) <;>
            simp [List.filterMap_cons, h, ih.2]
      | false =>
        simp only [jsSplitGo, specWordsGo, hw, if_false, Bool.false_eq_true]
        exact ih.1 (c :: cur)
    · cases hw : isWs c with
      | true =>
        simp only [jsSplitGo, specWordsGo, hw, if_true]
        exact ih.2
      | false =>
        simp only [jsSplitGo, specWordsGo, hw, if_false, Bool.false_eq_true]
        exact ih.1 [c]

theorem teamIds_eq_specTeamIds (desc : List Char) :
    teamIdsOfText desc = specTeamIds desc := by
  unfold teamIdsOfText specTeamIds jsSplit specWords
  rw [collectTeams_eq_filterMap]
  exact (splitGo_specGo_filterMap desc).1 []

theorem lookup_eq_none_of_no_key {β : Type} (key : String) (l : List (String × β))
    (h : ∀ p ∈ l, p.1 ≠ key) : l.lookup key = none := by
  induction l with
  | nil => rfl
  | cons p l ih =>
    obtain ⟨k, v⟩ := p
    have hk : (key == k) = false := by
      have := h (k, v) (by simp)
      simp only [ne_eq] at this
      exact beq_eq_false_iff_ne.mpr (fun hkk => this hkk.symm)
    simp only [List.lookup, hk]
    exact ih (fun q hq => h q (by simp [hq]))

theorem tokLookup_eq_none_of_not_key (w : List Char)
    (h : ∀ p ∈ teamNameMap, p.1 ≠ w.asString) : tokLookup w = none :=
  lookup_eq_none_of_no_key w.asString teamNameMap h

/-! ## Claim theorems -/

/-- C6: for every description string, the team-id list computed by
`getTeamIdsFromText` (split on `/[\s\n]+/`, `hasOwnProperty` test, push)
equals the reference definition: split the text on runs of
whitespace/newline characters, keep the tokens that are exactly
(case-sensitively) keys of the static 31-entry team table, and map each kept
token to its numeric id, preserving document order, duplicates included. -/
theorem teamIds_match_reference_tokenizer (desc : List Char) :
    teamIdsOfText desc = specTeamIds desc :=
  teamIds_eq_specTeamIds desc

/-- C2: for every detected text with at least one known team token, only the
first collected match determines the queried team: `getTeamIdsFromText`
proceeds with `getCurrentGame (teams[0])`, whatever the later matches are. -/
theorem first_match_determines_query (desc : List Char) (t : Nat)
    (rest : List Nat) (h : teamIdsOfText desc = t :: rest) :
    getTeamIdsFromText desc = .queryTeam t := by
  unfold getTeamIdsFromText
  rw [h]

theorem first_match_determines_query_witness :
    teamIdsOfText "TOR MTL VGK".toList = [10, 8, 54] ∧
    getTeamIdsFromText "TOR MTL VGK".toList = .queryTeam 10 :=
  ⟨by decide, first_match_determines_query _ 10 [8, 54] (by decide)⟩

/-- C3: for every detected text containing zero known team tokens,
`getTeamIdsFromText` returns the empty object `{}` and no stats API call is
made (`getCurrentGame` is never invoked, so no `scheduleCall` appears in the
pipeline's action trace). -/
theorem no_match_returns_empty_no_stats (desc : List Char)
    (h : ∀ w ∈ specWords desc, tokLookup w = none) :
    getTeamIdsFromText desc = .emptyObj ∧
    ∀ t, ReqAction.scheduleCall t ∉ teamPipelineActions desc := by
  have hnil : teamIdsOfText desc = [] := by
    rw [teamIds_eq_specTeamIds]
    exact List.filterMap_eq_nil_iff.mpr h
  have hout : getTeamIdsFromText desc = .emptyObj := by
    unfold getTeamIdsFromText
    rw [hnil]
  refine ⟨hout, ?_⟩
  intro t hmem
  unfold teamPipelineActions at hmem
  rw [hout] at hmem
  simp at hmem

theorem no_match_returns_empty_no_stats_witness :
    (∀ w ∈ specWords "final score 3 to 2".toList, tokLookup w = none) ∧
    getTeamIdsFromText "final score 3 to 2".toList = .emptyObj :=
  ⟨by decide, (no_match_returns_empty_no_stats _ (by decide)).1⟩

/-- C5 (code evaluation): when the OCR detection sequence is empty, the
finish handler responds 404 with the error body `"No text in image"` but,
lacking a `return` at app.js:126, then still executes
`res.status(200).json(teamIds)` with `teamIds` undefined: the trace contains
a second response attempt after the 404, while no team resolution and no
stats call occur. -/
theorem empty_detections_404_then_second_response :
    finishActions [] = [ReqAction.respond404 "No text in image",
                        ReqAction.respond200 RespBody.undef] := rfl

/-- C7: a `POST /upload` with no file in the `file` field responds HTTP 400
with the plain-text body `"No file uploaded."` and makes no downstream
calls: no object-store write, no OCR call, no stats API call. -/
theorem missing_file_400_no_downstream (bucketName : String)
    (dets : List Detection) :
    uploadHandler bucketName none dets = [ReqAction.respond400 "No file uploaded."] ∧
    (∀ n, ReqAction.storeWrite n ∉ uploadHandler bucketName none dets) ∧
    (∀ u, ReqAction.ocrCall u ∉ uploadHandler bucketName none dets) ∧
    (∀ t, ReqAction.scheduleCall t ∉ uploadHandler bucketName none dets) := by
  refine ⟨rfl, ?_, ?_, ?_⟩ <;> intro x hx <;> simp [uploadHandler] at hx

/-- C9 (counterexample): the schedule request URL the source builds at
app.js:159 is not the single-ampersand URL the claim states, because the
source writes `&&` between the two expand parameters. -/
theorem scheduleURL_not_single_ampersand :
    scheduleRequestURL 1 ≠
      "https://statsapi.web.nhl.com/api/v1/teams/1?expand=team.schedule.next&expand=team.schedule.previous" := by
  decide

/-- C9 (amended): for every team id `t`, the schedule request targets
exactly `"https://statsapi.web.nhl.com/api/v1/teams/" ++ toString t ++
"?expand=team.schedule.next" ++ "&&" ++ "expand=team.schedule.previous"`:
both expand parameters are present but separated by a double ampersand
(an empty query parameter between them), not a single one. -/
theorem scheduleURL_double_ampersand (teamID : Nat) :
    scheduleRequestURL teamID =
      "https://statsapi.web.nhl.com/api/v1/teams/" ++ toString teamID ++
        "?expand=team.schedule.next" ++ "&&" ++ "expand=team.schedule.previous" := by
  unfold scheduleRequestURL
  have h : ("?expand=team.schedule.next" ++ "&&" ++ "expand=team.schedule.previous" : String)
      = "?expand=team.schedule.next&&expand=team.schedule.previous" := by decide
  calc "https://statsapi.web.nhl.com/api/v1/teams/" ++ toString teamID ++
        "?expand=team.schedule.next&&expand=team.schedule.previous"
      = "https://statsapi.web.nhl.com/api/v1/teams/" ++ toString teamID ++
        ("?expand=team.schedule.next" ++ "&&" ++ "expand=team.schedule.previous") := by
        rw [h]
    _ = "https://statsapi.web.nhl.com/api/v1/teams/" ++ toString teamID ++
        "?expand=team.schedule.next" ++ "&&" ++ "expand=team.schedule.previous" := by
        simp [String.append_assoc]

/-- C10: a token that is not one of the 31 abbreviation keys literally
listed in `teamNameMap` — including names of inherited JavaScript object
properties such as `"toString"`, `"constructor"` and `"hasOwnProperty"` —
contributes no team id: membership is an own-key test (`hasOwnProperty`,
modelled by association-list lookup over exactly the listed entries), so
removing such a token from the word list leaves the collected ids
unchanged, and the inherited-property names look up to nothing. -/
theorem non_own_keys_produce_no_id :
    (∀ (w : List Char) (pre post : List (List Char)),
        (∀ p ∈ teamNameMap, p.1 ≠ w.asString) →
        collectTeams (pre ++ w :: post) = collectTeams (pre ++ post)) ∧
    tokLookup "toString".toList = none ∧
    tokLookup "constructor".toList = none ∧
    tokLookup "hasOwnProperty".toList = none := by
  refine ⟨?_, by decide, by decide, by decide⟩
  intro w pre post h
  have hw : tokLookup w = none := tokLookup_eq_none_of_not_key w h
  induction pre with
  | nil => simp [collectTeams, hw]
  | cons q pre ih => cases hq : tokLookup q <;> simp [collectTeams, hq, ih]

theorem non_own_keys_produce_no_id_witness :
    (∀ p ∈ teamNameMap, p.1 ≠ ("toString".toList).asString) ∧
    collectTeams (["TOR".toList] ++ "toString".toList :: ["MTL".toList])
      = collectTeams (["TOR".toList] ++ ["MTL".toList]) :=
  ⟨by decide,
   non_own_keys_produce_no_id.1 "toString".toList ["TOR".toList] ["MTL".toList]
     (by decide)⟩

/-- C1: for every schedule JSON response (navigations succeeding, status a
string), `getCurrentGame` follows the live-game policy: if the next
scheduled game's `abstractGameState` equals `"Live"`, the selected game
identifier is that game's `gamePk`; otherwise it is the previous scheduled
game's `gamePk`. -/
theorem currentGame_live_policy (json : Json) (t0 : Option Json)
    (nextGame prevGame statusObj npk ppk : Json) (s : String)
    (h0 : navTeams0 json = .ok t0)
    (h1 : navNextGame t0 = .ok (some nextGame))
    (h2 : nextGame.getS "status" = some statusObj)
    (h3 : statusObj.getS "abstractGameState" = some (.str s))
    (h4 : nextGame.getS "gamePk" = some npk)
    (h5 : navPrevGame t0 = .ok (some prevGame))
    (h6 : prevGame.getS "gamePk" = some ppk) :
    getCurrentGameId json = .ok (some (if s = "Live" then npk else ppk)) := by
  unfold getCurrentGameId
  rw [h0, ok_bind, h1, ok_bind, readS_some, h2, ok_bind, readS_some, h3, ok_bind]
  by_cases hs : s = "Live"
  · subst hs
    simp [isLiveStr, readS_some, h4]
  · have hb : isLiveStr (some (.str s)) = false := by simp [isLiveStr, hs]
    rw [hb]
    simp only [Bool.false_eq_true, if_false]
    rw [h5, ok_bind, readS_some, h6]
    simp [hs]

theorem currentGame_live_policy_witness :
    getCurrentGameId (scheduleFixture "Live" 101 99) = .ok (some (.num 101)) ∧
    getCurrentGameId (scheduleFixture "Final" 101 99) = .ok (some (.num 99)) := by
  constructor
  · have h := currentGame_live_policy (scheduleFixture "Live" 101 99)
      (some (schedTeam0 "Live" 101 99)) (schedNextGame "Live" 101)
      (schedPrevGame 99) (schedStatus "Live") (.num 101) (.num 99) "Live"
      rfl rfl rfl rfl rfl rfl rfl
    simpa using h
  · have h := currentGame_live_policy (scheduleFixture "Final" 101 99)
      (some (schedTeam0 "Final" 101 99)) (schedNextGame "Final" 101)
      (schedPrevGame 99) (schedStatus "Final") (.num 101) (.num 99) "Final"
      rfl rfl rfl rfl rfl rfl rfl
    simpa using h

theorem mapPlayers_ok_of_lookups (json : Json) (side : String)
    (tJ sdJ players : Json)
    (hT : json.getS "teams" = some tJ)
    (hS : tJ.getS side = some sdJ)
    (hP : sdJ.getS "players" = some players) :
    ∀ (pairs : List (Int × Json × Json)),
      (∀ p ∈ pairs, players.getS ("ID" ++ toString p.1) = some p.2.1 ∧
          p.2.1.getS "person" = some p.2.2) →
      mapPlayers (formatPlayer json side) (pairs.map (fun p => Json.num p.1)) =
        .ok (pairs.map (fun p =>
          ({ fullName := p.2.2.getS "fullName",
             number := p.2.2.getS "primaryNumber" } : PlayerEntry))) := by
  intro pairs
  induction pairs with
  | nil => intro _; rfl
  | cons p ps ih =>
    intro hL
    obtain ⟨hrec, hper⟩ := hL p (by simp)
    have hfp : formatPlayer json side (Json.num p.1) = .ok
        { fullName := p.2.2.getS "fullName",
          number := p.2.2.getS "primaryNumber" } := by
      unfold formatPlayer
      rw [readS_some, hT, ok_bind, readS_some, hS, ok_bind, readS_some, hP,
        ok_bind]
      simp only [idKey]
      rw [readS_some, hrec, ok_bind, readS_some, hper, ok_bind, readS_some,
        ok_bind, readS_some, ok_bind]
    have hrest := ih (fun q hq => hL q (by simp [hq]))
    simp only [List.map_cons, mapPlayers]
    rw [hfp, ok_bind, hrest, ok_bind]

/-- C4: for every boxscore JSON whose per-side `players` map has, for each
id in that side's `onIce` list, an entry keyed `"ID" + playerId` carrying a
`person`, `formatJson` returns the object with exactly the fields
`home.name`, `home.onIce[].fullName`, `home.onIce[].number`, `away.name`,
`away.onIce[].fullName`, `away.onIce[].number` (the `BoxscoreView`,
`SideView` and `PlayerEntry` structures carry exactly these fields and no
others), where each side's `onIce` output has exactly one entry per on-ice
player id, in order, with `fullName` and `number` copied verbatim from
`players["ID" + playerId].person` (`number` from `primaryNumber`). -/
theorem formatJson_output_shape
    (json tJ homeJ awayJ hteamJ ateamJ hplayers aplayers : Json)
    (homePairs awayPairs : List (Int × Json × Json))
    (hT : json.getS "teams" = some tJ)
    (hH : tJ.getS "home" = some homeJ)
    (hA : tJ.getS "away" = some awayJ)
    (hHT : homeJ.getS "team" = some hteamJ)
    (hAT : awayJ.getS "team" = some ateamJ)
    (hHP : homeJ.getS "players" = some hplayers)
    (hAP : awayJ.getS "players" = some aplayers)
    (hHO : homeJ.getS "onIce" = some (.arr (homePairs.map (fun p => Json.num p.1))))
    (hAO : awayJ.getS "onIce" = some (.arr (awayPairs.map (fun p => Json.num p.1))))
    (hHL : ∀ p ∈ homePairs, hplayers.getS ("ID" ++ toString p.1) = some p.2.1 ∧
        p.2.1.getS "person" = some p.2.2)
    (hAL : ∀ p ∈ awayPairs, aplayers.getS ("ID" ++ toString p.1) = some p.2.1 ∧
        p.2.1.getS "person" = some p.2.2) :
    formatJson json = .ok
      { home := { name := hteamJ.getS "name",
                  onIce := homePairs.map (fun p =>
                    { fullName := p.2.2.getS "fullName",
                      number := p.2.2.getS "primaryNumber" }) },
        away := { name := ateamJ.getS "name",
                  onIce := awayPairs.map (fun p =>
                    { fullName := p.2.2.getS "fullName",
                      number := p.2.2.getS "primaryNumber" }) } } := by
  have hhn : teamName json "home" = .ok (hteamJ.getS "name") := by
    unfold teamName
    rw [readS_some, hT, ok_bind, readS_some, hH, ok_bind, readS_some, hHT,
      ok_bind, readS_some]
  have han : teamName json "away" = .ok (ateamJ.getS "name") := by
    unfold teamName
    rw [readS_some, hT, ok_bind, readS_some, hA, ok_bind, readS_some, hAT,
      ok_bind, readS_some]
  have hhi : formatSideIce json "home" = .ok (homePairs.map (fun p =>
      ({ fullName := p.2.2.getS "fullName",
         number := p.2.2.getS "primaryNumber" } : PlayerEntry))) := by
    unfold formatSideIce
    rw [readS_some, hT, ok_bind, readS_some, hH, ok_bind, readS_some, hHO,
      ok_bind]
    rw [show asArray (some (.arr (homePairs.map (fun p => Json.num p.1))))
        = .ok (homePairs.map (fun p => Json.num p.1)) from rfl, ok_bind]
    exact mapPlayers_ok_of_lookups json "home" tJ homeJ hplayers hT hH hHP
      homePairs hHL
  have hai : formatSideIce json "away" = .ok (awayPairs.map (fun p =>
      ({ fullName := p.2.2.getS "fullName",
         number := p.2.2.getS "primaryNumber" } : PlayerEntry))) := by
    unfold formatSideIce
    rw [readS_some, hT, ok_bind, readS_some, hA, ok_bind, readS_some, hAO,
      ok_bind]
    rw [show asArray (some (.arr (awayPairs.map (fun p => Json.num p.1))))
        = .ok (awayPairs.map (fun p => Json.num p.1)) from rfl, ok_bind]
    exact mapPlayers_ok_of_lookups json "away" tJ awayJ aplayers hT hA hAP
      awayPairs hAL
  unfold formatJson
  rw [hhn, ok_bind, han, ok_bind, hhi, ok_bind, hai, ok_bind]

theorem formatJson_output_shape_witness :
    formatJson boxFixture = .ok
      { home := { name := some (.str "Home Club"),
                  onIce := [{ fullName := some (.str "Home One"),
                              number := some (.str "11") },
                            { fullName := some (.str "Home Two"),
                              number := some (.str "22") }] },
        away := { name := some (.str "Away Club"),
                  onIce := [{ fullName := some (.str "Away One"),
                              number := some (.str "33") },
                            { fullName := some (.str "Away Two"),
                              number := some (.str "44") }] } } := by
  have h := formatJson_output_shape boxFixture
    (.obj [("home", boxHomeFix), ("away", boxAwayFix)])
    boxHomeFix boxAwayFix
    (.obj [("name", .str "Home Club")]) (.obj [("name", .str "Away Club")])
    (.obj [("ID101", .obj [("person", personFix "Home One" "11")]),
           ("ID102", .obj [("person", personFix "Home Two" "22")])])
    (.obj [("ID201", .obj [("person", personFix "Away One" "33")]),
           ("ID202", .obj [("person", personFix "Away Two" "44")])])
    [(101, .obj [("person", personFix "Home One" "11")], personFix "Home One" "11"),
     (102, .obj [("person", personFix "Home Two" "22")], personFix "Home Two" "22")]
    [(201, .obj [("person", personFix "Away One" "33")], personFix "Away One" "33"),
     (202, .obj [("person", personFix "Away Two" "44")], personFix "Away Two" "44")]
    rfl rfl rfl rfl rfl rfl rfl rfl rfl
    (by intro p hp
        simp only [List.mem_cons, List.not_mem_nil, or_false] at hp
        rcases hp with rfl | rfl <;> exact ⟨rfl, rfl⟩)
    (by intro p hp
        simp only [List.mem_cons, List.not_mem_nil, or_false] at hp
        rcases hp with rfl | rfl <;> exact ⟨rfl, rfl⟩)
  simpa using h

theorem mapPlayers_ok_mem {f : Json → Except Unit PlayerEntry} :
    ∀ {xs : List Json} {ys : List PlayerEntry}, mapPlayers f xs = .ok ys →
      ∀ x ∈ xs, ∃ y, f x = .ok y := by
  intro xs
  induction xs with
  | nil => intro ys h x hx; simp at hx
  | cons a l ih =>
    intro ys h x hx
    unfold mapPlayers at h
    obtain ⟨y, hy, h2⟩ := bind_eq_ok h
    obtain ⟨ys2, hys, _⟩ := bind_eq_ok h2
    rcases List.mem_cons.mp hx with rfl | hx2
    · exact ⟨y, hy⟩
    · exact ih hys x hx2

/-- C8: for every boxscore JSON in which some id in a side's `onIce` list
has no entry keyed `"ID" + playerId` in that side's `players` map,
`formatJson` throws (the next read `['person']` is a property access on
`undefined`), and `getGameStats` consequently rejects its promise rather
than resolving a partial result. -/
theorem missing_player_key_rejects (json tJ sdJ players : Json)
    (side : String) (ids : List Json) (n : Int)
    (hside : side = "home" ∨ side = "away")
    (hT : json.getS "teams" = some tJ)
    (hS : tJ.getS side = some sdJ)
    (hO : sdJ.getS "onIce" = some (.arr ids))
    (hmem : Json.num n ∈ ids)
    (hP : sdJ.getS "players" = some players)
    (hmiss : players.getS ("ID" ++ toString n) = none) :
    formatJson json = .error () ∧ getGameStats json = .rejected := by
  have hfp : formatPlayer json side (Json.num n) = .error () := by
    unfold formatPlayer
    rw [readS_some, hT, ok_bind, readS_some, hS, ok_bind, readS_some, hP,
      ok_bind]
    simp only [idKey]
    rw [readS_some, hmiss, ok_bind]
    rfl
  have hice : ∀ l, formatSideIce json side ≠ .ok l := by
    intro l hok
    unfold formatSideIce at hok
    rw [readS_some, hT, ok_bind, readS_some, hS, ok_bind, readS_some, hO,
      ok_bind] at hok
    rw [show asArray (some (.arr ids)) = .ok ids from rfl, ok_bind] at hok
    obtain ⟨y, hy⟩ := mapPlayers_ok_mem hok (Json.num n) hmem
    rw [hfp] at hy
    exact Except.noConfusion hy
  have hmain : formatJson json = .error () := by
    cases hres : formatJson json with
    | error e => cases e; rfl
    | ok v =>
      exfalso
      unfold formatJson at hres
      obtain ⟨hn, hhn, hres2⟩ := bind_eq_ok hres
      obtain ⟨an, han, hres3⟩ := bind_eq_ok hres2
      obtain ⟨hi, hhi, hres4⟩ := bind_eq_ok hres3
      obtain ⟨ai, hai, _⟩ := bind_eq_ok hres4
      rcases hside with rfl | rfl
      · exact hice hi hhi
      · exact hice ai hai
  exact ⟨hmain, by simp [getGameStats, hmain]⟩

theorem missing_player_key_rejects_witness :
    formatJson boxMissFixture = .error () ∧
    getGameStats boxMissFixture = .rejected :=
  missing_player_key_rejects boxMissFixture
    (.obj [("home", boxHomeFix), ("away", boxAwayMissFix)])
    boxAwayMissFix
    (.obj [("ID201", .obj [("person", personFix "Away One" "33")])])
    "away" [Json.num 333] 333
    (Or.inr rfl) rfl rfl rfl (by simp) rfl rfl
